import Mathlib

/-!
Verification of the core logic of the Student-note-make-AiPowerd repository.

The repository is a React study-aid generator.  The parts embedded here are
the pure computational cores of its source files:

* src/src/utils/textProcessing.js   — word-level text chunking (chunkText);
* unnamed OutputScreen component    — per-answer quiz scoring (handleShowAnswer);
* src/src/components/Dashboard.jsx  — normalized percentage aggregation;
* src/src/utils/storage.js          — per-user persistence operations
  (saveNoteToHistory, deleteNoteFromHistory, saveQuizResult);
* src/src/services/aiService.js     — credential/model rotation
  (getNextKeyAndModel) and the resilient call loop (callGemini), and the
  fallback parsers (parseFlashcardsManually, parseQuestionsManually).

Conventions used throughout the embedding:

* Stateful JavaScript (module-level cursor variables, localStorage blobs)
  becomes explicit state passing: the rotation cursor is a RotState value,
  a user's localStorage blob is a UserData value.
* Date.now() / new Date().toISOString() values are taken as parameters.
* JavaScript strings are Lean Strings; an optional / possibly-undefined
  value is an Option.
* The network is abstracted as a function from the attempt number to the
  observed outcome of that attempt (the "response sequence").
-/

namespace NotesApp

/-! ## Text chunking — src/src/utils/textProcessing.js, chunkText (lines 23-47)

The source normalizes the text and splits it on whitespace before chunking;
the embedding works on the resulting word list directly.  A chunk is kept as
a word list (the source joins the words back with single spaces). -/

/-- Body of the while loop of chunkText (lines 36-44).  The source loop
always terminates when overlapWords < maxWords because startIdx strictly
increases; the fuel argument makes that termination explicit and is chosen
large enough (callers pass words.length + 1) never to run out for the
parameters the repository uses (1500 words, 25 percent). -/
def chunkLoop (words : List String) (maxWords overlapWords : Nat) :
    Nat → Nat → List (List String)
  | 0, _ => []
  | fuel + 1, startIdx =>
    if startIdx < words.length then
      let endIdx := min (startIdx + maxWords) words.length
      let chunk := (words.drop startIdx).take (endIdx - startIdx)
      if endIdx ≥ words.length then [chunk]
      else chunk :: chunkLoop words maxWords overlapWords fuel (endIdx - overlapWords)
    else []

/-- chunkText (lines 23-47): a word list of at most maxWords is one single
chunk; otherwise the loop slices maxWords-sized windows whose start moves
back by overlapWords = floor(maxWords * overlapPercent / 100) each step. -/
def chunkText (words : List String) (maxWords : Nat := 1500)
    (overlapPercent : Nat := 25) : List (List String) :=
  if words.length ≤ maxWords then [words]
  else
    let overlapWords := maxWords * overlapPercent / 100
    chunkLoop words maxWords overlapWords (words.length + 1) 0

/-! ## Per-answer scoring — OutputScreen, handleShowAnswer (lines 60-128)

The handler reads userAnswer = selectedAnswers[questionIndex] (undefined if
the user selected nothing, hence an Option) and compares it with the
question's correct option. -/

/-- The score / isCorrect computation of handleShowAnswer (lines 64-74). -/
def handleShowAnswerScore (userAnswer : Option String) (correct : String) :
    Int × Bool :=
  if userAnswer = some correct then (1, true) else (-1, false)

/-! ## Persistence — src/src/utils/storage.js

A user's localStorage blob student_notes_user_{userId} is a UserData value.
The quizProgress object (a JS map from noteId to a progress blob) is an
association list whose keys are the note ids. -/

/-- A saved note (the fields the storage layer reads or writes). -/
structure Note where
  id : Nat
  userId : Nat
  title : String
  subject : String
  summary : String
  createdAt : String
deriving DecidableEq, Repr

/-- One saved quiz answer, as assembled by handleShowAnswer and stamped by
saveQuizResult. -/
structure QuizResult where
  noteId : Nat
  questionIndex : Nat
  userAnswer : Option String
  correctAnswer : String
  isCorrect : Bool
  score : Int
  userId : Nat
  timestamp : String
deriving DecidableEq, Repr

/-- The per-note quiz progress blob written by saveQuizProgress. -/
structure QuizProgressEntry where
  selectedAnswers : List (Nat × String)
  showAnswers : List Nat
  questionScores : List (Nat × Int)
  allQuestionsChecked : Bool
  lastUpdated : String
deriving DecidableEq, Repr

/-- User settings blob. -/
structure Settings where
  defaultDepth : String
  preferredLanguage : String
  defaultFormat : String
deriving DecidableEq, Repr

/-- The whole per-user localStorage blob. -/
structure UserData where
  notes : List Note
  quizResults : List QuizResult
  quizProgress : List (Nat × QuizProgressEntry)
  settings : Settings
deriving DecidableEq, Repr

/-- deleteNoteFromHistory (storage.js lines 192-230), acting on the current
user's blob: filter the note out of notes, filter its results out of
quizResults, and delete its quizProgress key. -/
def deleteNoteFromHistory (noteId : Nat) (d : UserData) : UserData :=
  { d with
    notes := d.notes.filter (fun note => note.id != noteId)
    quizResults := d.quizResults.filter (fun result => result.noteId != noteId)
    quizProgress := d.quizProgress.filter (fun p => p.1 != noteId) }

/-- saveNoteToHistory (storage.js lines 165-187), acting on the current
user's blob: stamp the note with a fresh id (Date.now()), the current user
id and an ISO timestamp, unshift it onto notes, and keep only the first 50
notes. -/
def saveNoteToHistory (userId newId : Nat) (nowIso : String) (note : Note)
    (d : UserData) : UserData :=
  let noteWithTimestamp :=
    { note with id := newId, userId := userId, createdAt := nowIso }
  { d with notes := (noteWithTimestamp :: d.notes).take 50 }

/-- saveQuizResult (storage.js lines 282-327), acting on the current user's
quizResults list: stamp the result with the user id and a timestamp, then
either overwrite the existing entry with the same (noteId, questionIndex)
key or append a new entry. -/
def saveQuizResult (userId : Nat) (now : String) (result : QuizResult)
    (quizResults : List QuizResult) : List QuizResult :=
  let resultToSave := { result with userId := userId, timestamp := now }
  match quizResults.findIdx?
      (fun r => r.noteId == result.noteId && r.questionIndex == result.questionIndex) with
  | some existingIndex => quizResults.set existingIndex resultToSave
  | none => quizResults ++ [resultToSave]

/-- The replacement key of a quiz result. -/
def resultKey (r : QuizResult) : Nat × Nat :=
  (r.noteId, r.questionIndex)

/-- A quizResults list holds at most one entry per (noteId, questionIndex)
key. -/
abbrev UniqueKeys (l : List QuizResult) : Prop :=
  l.Pairwise (fun a b => resultKey a ≠ resultKey b)

/-- A concrete stored quiz result used in witnesses. -/
def sampleResultA : QuizResult :=
  { noteId := 1, questionIndex := 0, userAnswer := some ("A"),
    correctAnswer := "A", isCorrect := true, score := 1, userId := 7,
    timestamp := "t0" }

/-- A second concrete stored quiz result (different question). -/
def sampleResultB : QuizResult :=
  { noteId := 1, questionIndex := 1, userAnswer := none,
    correctAnswer := "B", isCorrect := false, score := -1, userId := 7,
    timestamp := "t0" }

/-- A fresh answer to the same question as sampleResultB. -/
def sampleResultB2 : QuizResult :=
  { noteId := 1, questionIndex := 1, userAnswer := some ("B"),
    correctAnswer := "B", isCorrect := true, score := 1, userId := 0,
    timestamp := "" }

/-! ## Fallback parsers — src/src/services/aiService.js (lines 458-499) -/

/-- A flashcard record. -/
structure Flashcard where
  question : String
  answer : String
deriving DecidableEq, Repr

/-- A multiple-choice question record. -/
structure MCQ where
  type : String
  question : String
  options : List String
  correct : String
  explanation : String
deriving DecidableEq, Repr

/-- ASCII-lowercased code of a character, embedding the case folding the
source's case-insensitive regexes perform on their ASCII patterns. -/
def lowerNat (c : Char) : Nat :=
  if 65 ≤ c.toNat ∧ c.toNat ≤ 90 then c.toNat + 32 else c.toNat

/-- Case-insensitive prefix test on character lists; the embedding of an
anchored case-insensitive regex literal match. -/
def ciStartsWith : List Char → List Char → Bool
  | _, [] => true
  | [], _ :: _ => false
  | c :: cs, p :: ps => (lowerNat c == lowerNat p) && ciStartsWith cs ps

/-- The JS String.prototype.split on a newline separator, embedded on the
character list: split("\n") of "" is [""], and a trailing newline produces
a trailing empty piece. -/
def splitOnNl : List Char → List (List Char)
  | [] => [[]]
  | c :: rest =>
    let r := splitOnNl rest
    if c = '\n' then [] :: r
    else
      match r with
      | [] => [[c]]
      | h :: t => (c :: h) :: t

/-- Whitespace as trimmed by JS String.prototype.trim (the kinds that occur
in model output: space, tab, carriage return, newline). -/
def isJsSpace (c : Char) : Bool :=
  c == ' ' || c == '\t' || c == '\r' || c == '\n'

/-- JS String.prototype.trim embedded on the character list. -/
def jsTrim (s : String) : String :=
  String.mk (((s.data.dropWhile isJsSpace).reverse.dropWhile isJsSpace).reverse)

/-- The case-insensitive anchored pattern (Q|Question): of line 464; on a
match, the matched prefix is removed and the rest trimmed, as in line 467.
The regex alternation matches the longer Question: form whenever it
applies. -/
def stripQ (line : String) : Option String :=
  if ciStartsWith line.data (("question:").data) then
    some (jsTrim (String.mk (line.data.drop 9)))
  else if ciStartsWith line.data (("q:").data) then
    some (jsTrim (String.mk (line.data.drop 2)))
  else none

/-- The case-insensitive anchored pattern (A|Answer): of line 470 with the
prefix removal and trim of line 471. -/
def stripA (line : String) : Option String :=
  if ciStartsWith line.data (("answer:").data) then
    some (jsTrim (String.mk (line.data.drop 7)))
  else if ciStartsWith line.data (("a:").data) then
    some (jsTrim (String.mk (line.data.drop 2)))
  else none

/-- The accumulation loop of parseFlashcardsManually (lines 462-474): a Q:
line pushes the pending card (if any) and opens a new one; an A: line fills
the pending card's answer; after the last line the pending card is pushed
only if its answer is a nonempty string. -/
def parseFlashcardsLoop : List String → Option Flashcard → List Flashcard
  | [], cur =>
    match cur with
    | some q => if q.answer ≠ "" then [q] else []
    | none => []
  | line :: rest, cur =>
    match stripQ line with
    | some qtext =>
      (match cur with
        | some q => [q]
        | none => []) ++
        parseFlashcardsLoop rest (some { question := qtext, answer := "" })
    | none =>
      match stripA line, cur with
      | some atext, some q =>
        parseFlashcardsLoop rest (some { q with answer := atext })
      | _, _ => parseFlashcardsLoop rest cur

/-- The line preprocessing of line 460: split on newlines and keep the lines
that are nonempty after trimming. -/
def flashcardLines (text : String) : List String :=
  ((splitOnNl text.data).map String.mk).filter (fun line => jsTrim line != "")

/-- The placeholder flashcard of lines 479-482. -/
def fallbackFlashcard : Flashcard :=
  { question := "Sample Question",
    answer := "Sample Answer - Generation failed, please try again." }

/-- parseFlashcardsManually (lines 458-484): run the extraction loop over
the nonempty lines; if nothing was extracted, return the single placeholder
record. -/
def parseFlashcardsManually (text : String) : List Flashcard :=
  let flashcards := parseFlashcardsLoop (flashcardLines text) none
  if flashcards.length > 0 then flashcards else [fallbackFlashcard]

/-- The placeholder question of lines 490-498. -/
def fallbackQuestion : MCQ :=
  { type := "mcq",
    question := "Sample question - Generation failed, please try again.",
    options := ["A) Option 1", "B) Option 2", "C) Option 3", "D) Option 4"],
    correct := "A",
    explanation := "Please regenerate questions." }

/-- parseQuestionsManually (lines 489-499): always the single placeholder
MCQ record, whatever the model produced. -/
def parseQuestionsManually (_text : String) : List MCQ :=
  [fallbackQuestion]

/-! ## Performance percentage — src/src/components/Dashboard.jsx

calculateStats (lines 86-94) and getNotePerformance (lines 218-227) both
run parseFloat(value.toFixed(1)) on the normalized percentage; the numbers
are modelled as exact rationals and toFixed(1) as rounding to one decimal
place. -/

/-- Rounding to one decimal place, as performed by toFixed(1) followed by
parseFloat.  JS rounds half away from zero; on the nonnegative values the
percentage formula produces this equals floor(10 x + 1/2) / 10. -/
def toFixed1 (x : ℚ) : ℚ :=
  ((Rat.floor (10 * x + 1 / 2) : ℤ) : ℚ) / 10

/-- The totalScore accumulator of calculateStats (line 71): the sum of
result.score over the quiz results. -/
def totalScoreOf (results : List QuizResult) : ℚ :=
  results.foldl (fun s r => s + (r.score : ℚ)) 0

/-- The percentage computation shared by calculateStats and
getNotePerformance: 0 when no question was attempted, otherwise
((totalScore + attempted) / (2 * attempted)) * 100 rounded to one
decimal. -/
def normalizedPercentage (totalScore : ℚ) (questionsAttempted : Nat) : ℚ :=
  if 0 < questionsAttempted then
    toFixed1 ((totalScore + (questionsAttempted : ℚ)) /
      (2 * (questionsAttempted : ℚ)) * 100)
  else 0

/-- The averageScore value of calculateStats (Dashboard.jsx lines 86-94). -/
def averageScore (results : List QuizResult) : ℚ :=
  normalizedPercentage (totalScoreOf results) results.length

/-- The percentage field of getNotePerformance (Dashboard.jsx lines
218-227): the same formula over the results filtered to one note. -/
def notePerformancePercentage (noteId : Nat) (results : List QuizResult) : ℚ :=
  let noteResults := results.filter (fun r => r.noteId == noteId)
  normalizedPercentage (totalScoreOf noteResults) noteResults.length

/-- A quiz result with the given key and score, for concrete scenarios. -/
def qr (nid qi : Nat) (sc : Int) (ok : Bool) : QuizResult :=
  { noteId := nid, questionIndex := qi, userAnswer := none,
    correctAnswer := "A", isCorrect := ok, score := sc, userId := 0,
    timestamp := "" }

/-- Four attempted questions, two right and two wrong (N = 4, S = 0). -/
def fourEven : List QuizResult :=
  [qr 1 0 1 true, qr 1 1 1 true, qr 1 2 (-1) false, qr 1 3 (-1) false]

/-- Four attempted questions, all right (N = 4, S = 4). -/
def fourAllCorrect : List QuizResult :=
  [qr 1 0 1 true, qr 1 1 1 true, qr 1 2 1 true, qr 1 3 1 true]

/-- Four attempted questions, all wrong (N = 4, S = -4). -/
def fourAllWrong : List QuizResult :=
  [qr 1 0 (-1) false, qr 1 1 (-1) false, qr 1 2 (-1) false, qr 1 3 (-1) false]

/-- Three attempted questions, two right and one wrong (N = 3, S = 1). -/
def mixedResults : List QuizResult :=
  [qr 1 0 1 true, qr 1 1 1 true, qr 1 2 (-1) false]

/-! ## Credential/model rotation — src/src/services/aiService.js (lines
22-50)

The module-level mutable variables currentKeyIndex / currentModelIndex
become an explicit cursor value threaded through the calls. -/

/-- The rotation cursor. -/
structure RotState where
  currentKeyIndex : Nat
  currentModelIndex : Nat
deriving DecidableEq, Repr

/-- The four-tier model priority list (aiService.js lines 15-20). -/
def MODELS : List String :=
  ["gemini-2.5-flash-lite", "gemini-2.5-flash", "gemini-2.5-pro",
    "gemini-2.0-flash"]

/-- getNextKeyAndModel (lines 30-50): return the pair under the cursor,
then advance to the next model, wrapping into the next key (modulo the
number of keys) after the last model.  The source throws when the key list
is empty; its caller (callGemini) refuses before looping in that case, and
the rotation theorems assume a valid cursor over nonempty lists. -/
def getNextKeyAndModel (keys models : List String) (s : RotState) :
    (String × String) × RotState :=
  let apiKey := keys.getD s.currentKeyIndex ("")
  let model := models.getD s.currentModelIndex ("")
  let nextModelIndex := s.currentModelIndex + 1
  if nextModelIndex ≥ models.length then
    ((apiKey, model),
      { currentKeyIndex := (s.currentKeyIndex + 1) % keys.length,
        currentModelIndex := 0 })
  else
    ((apiKey, model),
      { currentKeyIndex := s.currentKeyIndex,
        currentModelIndex := nextModelIndex })

/-- The outputs of n successive getNextKeyAndModel calls from a cursor. -/
def rotOutputs (keys models : List String) : RotState → Nat → List (String × String)
  | _, 0 => []
  | s, n + 1 =>
    (getNextKeyAndModel keys models s).1 ::
      rotOutputs keys models (getNextKeyAndModel keys models s).2 n

/-- A cursor whose indices are in range of the two lists. -/
abbrev ValidCursor (N M : Nat) (s : RotState) : Prop :=
  s.currentKeyIndex < N ∧ s.currentModelIndex < M

/-- Positional encoding of a cursor as keyIndex * M + modelIndex. -/
def encodeCursor (M : Nat) (s : RotState) : Nat :=
  s.currentKeyIndex * M + s.currentModelIndex

/-- Positional decoding, the inverse of encodeCursor on valid cursors. -/
def decodeCursor (M e : Nat) : RotState :=
  { currentKeyIndex := e / M, currentModelIndex := e % M }

/-- The (credential, model) pair the rotator hands out at a cursor. -/
def cursorValue (keys models : List String) (s : RotState) : String × String :=
  (keys.getD s.currentKeyIndex (""), models.getD s.currentModelIndex (""))

/-! ## Resilient call loop — src/src/services/aiService.js, callGemini
(lines 56-180)

Each attempt performs one fetch; the observed outcome of attempt number n
(0-based) is abstracted as a value of AttemptOutcome supplied by a response
sequence.  The while loop becomes a fuel recursion whose fuel is the number
of attempts still allowed, so the loop makes at most
keys.length * models.length attempts. -/

/-- What one fetch of the loop body can observe: a 2xx response carrying an
extractable text (or not, possibly flagged as safety-blocked), a non-2xx
response with a status code and an optional error message from the JSON
body, or a thrown network error. -/
inductive AttemptOutcome where
  | httpOk (text : Option String) (safetyBlocked : Bool)
  | httpErr (status : Nat) (errMsg : Option String)
  | netErr (msg : String)
deriving DecidableEq, Repr

/-- The final outcome of callGemini: the returned text, or the message of
the error it throws. -/
inductive CallResult where
  | success (text : String)
  | failure (msg : String)
deriving DecidableEq, Repr

/-- What a callGemini run did: how many attempts it made and how it
ended. -/
structure CallTrace where
  attempts : Nat
  result : CallResult
deriving DecidableEq, Repr

/-- The JS expression errorData.error?.message || default: the message when
it is present and nonempty (JS treats the empty string as falsy), otherwise
the default. -/
def jsOr (msg : Option String) (dflt : String) : String :=
  match msg with
  | some m => if m = "" then dflt else m
  | none => dflt

/-- The exhaustion message of lines 176-178. -/
def exhaustedMsg (total : Nat) : String :=
  "All " ++ toString total ++
    " API key/model combinations exhausted. Please wait before retrying."

/-- The while loop of callGemini (lines 72-171).  Arguments: the remaining
allowed attempts (fuel), the rotation cursor, the number of attempts made
so far, and the last recorded error message.  Every classified failure —
including a non-retryable HTTP status, whose thrown error line 134 is
caught by the catch block line 154 — records its message in lastError and
continues the loop; only a 2xx response with extractable text leaves the
loop early.  When the fuel runs out, the loop falls through to line 174 and
throws lastError (or the generic exhaustion message when no attempt was
made). -/
def callGeminiAux (keys models : List String)
    (responses : Nat → AttemptOutcome) :
    Nat → RotState → Nat → Option String → CallTrace
  | 0, _, n, lastError =>
    { attempts := n,
      result := .failure
        (lastError.getD (exhaustedMsg (keys.length * models.length))) }
  | fuel + 1, s, n, _lastError =>
    let next := getNextKeyAndModel keys models s
    match responses n with
    | .httpOk (some text) _ => { attempts := n + 1, result := .success text }
    | .httpOk none safetyBlocked =>
      callGeminiAux keys models responses fuel next.2 (n + 1)
        (some (if safetyBlocked then ("Content blocked by safety filters")
          else ("Invalid response format from Gemini API")))
    | .httpErr status errMsg =>
      if status == 429 || status == 403 then
        callGeminiAux keys models responses fuel next.2 (n + 1)
          (some (jsOr errMsg ("Rate limit: " ++ toString status)))
      else if status == 404 || status == 400 then
        callGeminiAux keys models responses fuel next.2 (n + 1)
          (some (jsOr errMsg ("Model error: " ++ toString status)))
      else
        callGeminiAux keys models responses fuel next.2 (n + 1)
          (some (jsOr errMsg ("API request failed with status " ++ toString status)))
    | .netErr m =>
      callGeminiAux keys models responses fuel next.2 (n + 1) (some m)

/-- callGemini (lines 56-180): refuse without attempting when no key is
configured, otherwise run the loop with totalCombinations =
keys.length * models.length allowed attempts. -/
def callGemini (keys models : List String) (responses : Nat → AttemptOutcome)
    (s : RotState) : CallTrace :=
  if keys.length = 0 then
    { attempts := 0,
      result := .failure
        ("Gemini API keys not configured. Please add your API keys to .env file.") }
  else
    callGeminiAux keys models responses (keys.length * models.length) s 0 none

/-- The message an attempt outcome leaves in lastError (empty for a
successful attempt, which records nothing). -/
def recordedMsg : AttemptOutcome → String
  | .httpOk (some _) _ => ""
  | .httpOk none safetyBlocked =>
    if safetyBlocked then ("Content blocked by safety filters")
    else ("Invalid response format from Gemini API")
  | .httpErr status errMsg =>
    if status == 429 || status == 403 then
      jsOr errMsg ("Rate limit: " ++ toString status)
    else if status == 404 || status == 400 then
      jsOr errMsg ("Model error: " ++ toString status)
    else
      jsOr errMsg ("API request failed with status " ++ toString status)
  | .netErr m => m

/-- An outcome that does not end the loop with a success. -/
def attemptFails : AttemptOutcome → Bool
  | .httpOk (some _) _ => false
  | _ => true

/-- The HTTP statuses the loop classifies as retryable (lines 113 and
124). -/
def retryableStatus (status : Nat) : Bool :=
  status == 429 || status == 403 || status == 404 || status == 400

end NotesApp

namespace NotesApp

/-! ## Theorems -/

/-- One loop iteration of chunkLoop that is not the last: the window ends
strictly before the end of the word list, so a full maxWords-sized chunk is
emitted and the loop recurses. -/
theorem chunkLoop_step (words : List String) (maxWords overlapWords fuel startIdx : Nat)
    (h2 : startIdx + maxWords < words.length) :
    chunkLoop words maxWords overlapWords (fuel + 1) startIdx =
      (words.drop startIdx).take maxWords ::
        chunkLoop words maxWords overlapWords fuel (startIdx + maxWords - overlapWords) := by
  rw [chunkLoop]
  rw [if_pos (by omega : startIdx < words.length)]
  have hmin : min (startIdx + maxWords) words.length = startIdx + maxWords := by omega
  simp only [hmin]
  rw [if_neg (by omega : ¬ startIdx + maxWords ≥ words.length)]
  congr 1
  congr 1
  omega

/-- The last loop iteration of chunkLoop: the window reaches the end of the
word list, the rest of the list is emitted and the loop stops. -/
theorem chunkLoop_last (words : List String) (maxWords overlapWords fuel startIdx : Nat)
    (h1 : startIdx < words.length) (h2 : words.length ≤ startIdx + maxWords) :
    chunkLoop words maxWords overlapWords (fuel + 1) startIdx =
      [words.drop startIdx] := by
  rw [chunkLoop]
  rw [if_pos h1]
  have hmin : min (startIdx + maxWords) words.length = words.length := by omega
  simp only [hmin]
  rw [if_pos (by omega : words.length ≥ words.length)]
  congr 1
  apply List.take_of_length_le
  simp

/-- C4: for chunkText with chunk size 1500 and overlap 25 percent, an input
of at most 1500 words yields exactly one chunk, and an input of exactly 1501
words yields exactly two chunks, the second starting at word index
1500 - floor(1500 * 25 / 100) = 1125. -/
theorem chunkText_boundary (words : List String) :
    (words.length ≤ 1500 → chunkText words 1500 25 = [words]) ∧
    (words.length = 1501 →
      chunkText words 1500 25 =
        [words.take 1500, words.drop (1500 - 1500 * 25 / 100)]) := by
  constructor
  · intro h
    simp [chunkText, h]
  · intro h
    have h1500 : ¬ words.length ≤ 1500 := by omega
    have hfuel : words.length + 1 = 1501 + 1 := by omega
    have hov : 1500 * 25 / 100 = 375 := by norm_num
    rw [chunkText, if_neg h1500, hov, hfuel]
    rw [chunkLoop_step words 1500 375 1501 0 (by omega)]
    have hstart : 0 + 1500 - 375 = 1125 := by norm_num
    have hf2 : (1501 : Nat) = 1500 + 1 := by norm_num
    rw [hstart, hf2]
    rw [chunkLoop_last words 1500 375 1500 1125 (by omega) (by omega)]
    norm_num

/-- Witness for C4 at a concrete 1501-word input. -/
theorem chunkText_boundary_witness :
    chunkText (List.replicate 1501 ("w")) 1500 25 =
      [(List.replicate 1501 ("w")).take 1500,
        (List.replicate 1501 ("w")).drop (1500 - 1500 * 25 / 100)] :=
  (chunkText_boundary (List.replicate 1501 ("w"))).2 (by rw [List.length_replicate])

/-- C6: for every answered question, the score contribution is +1 when the
selected option equals the correct option and -1 otherwise, and isCorrect is
true exactly in the equal case. -/
theorem handleShowAnswerScore_spec (selected correct : String) :
    handleShowAnswerScore (some selected) correct =
      (if selected = correct then ((1 : Int), true) else ((-1 : Int), false)) := by
  by_cases h : selected = correct <;> simp [handleShowAnswerScore, h]

/-- C7: deleting a note removes exactly that note, every quiz result with
the matching noteId and the quiz progress entry for that noteId, and leaves
everything belonging to other note ids, as well as the settings, unchanged
(the surviving lists are sublists of the originals, so order is kept). -/
theorem deleteNoteFromHistory_spec (noteId : Nat) (d : UserData) :
    (∀ n, n ∈ (deleteNoteFromHistory noteId d).notes ↔
      (n ∈ d.notes ∧ n.id ≠ noteId)) ∧
    (∀ r, r ∈ (deleteNoteFromHistory noteId d).quizResults ↔
      (r ∈ d.quizResults ∧ r.noteId ≠ noteId)) ∧
    (∀ p, p ∈ (deleteNoteFromHistory noteId d).quizProgress ↔
      (p ∈ d.quizProgress ∧ p.1 ≠ noteId)) ∧
    (deleteNoteFromHistory noteId d).notes.Sublist d.notes ∧
    (deleteNoteFromHistory noteId d).quizResults.Sublist d.quizResults ∧
    (deleteNoteFromHistory noteId d).quizProgress.Sublist d.quizProgress ∧
    (deleteNoteFromHistory noteId d).settings = d.settings := by
  refine ⟨?_, ?_, ?_, ?_, ?_, ?_, rfl⟩
  · intro n
    simp [deleteNoteFromHistory, List.mem_filter]
  · intro r
    simp [deleteNoteFromHistory, List.mem_filter]
  · intro p
    simp [deleteNoteFromHistory, List.mem_filter]
  · exact List.filter_sublist d.notes
  · exact List.filter_sublist d.quizResults
  · exact List.filter_sublist d.quizProgress

/-- C10: saving a note puts the freshly stamped note at index 0, keeps the
previous notes (truncated to the first 49) behind it, never produces more
than 50 notes, and leaves the rest of the user blob unchanged. -/
theorem saveNoteToHistory_spec (userId newId : Nat) (nowIso : String)
    (note : Note) (d : UserData) :
    (saveNoteToHistory userId newId nowIso note d).notes.length =
      min (d.notes.length + 1) 50 ∧
    (saveNoteToHistory userId newId nowIso note d).notes.head? =
      some { note with id := newId, userId := userId, createdAt := nowIso } ∧
    (saveNoteToHistory userId newId nowIso note d).notes.tail =
      d.notes.take 49 ∧
    (saveNoteToHistory userId newId nowIso note d).notes.length ≤ 50 ∧
    (saveNoteToHistory userId newId nowIso note d).quizResults = d.quizResults ∧
    (saveNoteToHistory userId newId nowIso note d).quizProgress = d.quizProgress ∧
    (saveNoteToHistory userId newId nowIso note d).settings = d.settings := by
  have htake : ∀ (a : Note) (l : List Note),
      (a :: l).take 50 = a :: l.take 49 := by
    intro a l
    rfl
  refine ⟨?_, ?_, ?_, ?_, rfl, rfl, rfl⟩
  · simp only [saveNoteToHistory, List.length_take, List.length_cons]
    omega
  · rw [saveNoteToHistory]
    simp only [htake]
    rfl
  · rw [saveNoteToHistory]
    simp only [htake]
    rfl
  · simp only [saveNoteToHistory, List.length_take, List.length_cons]
    omega

/-- The search predicate of saveQuizResult matches exactly the entries whose
(noteId, questionIndex) key equals the key of the incoming result. -/
theorem saveQuizResult_pred_iff (result r : QuizResult) :
    ((r.noteId == result.noteId && r.questionIndex == result.questionIndex) = true)
      ↔ resultKey r = resultKey result := by
  simp [resultKey, Prod.ext_iff]

/-- C8: saving a quiz result preserves the invariant that the quizResults
list has at most one entry per (noteId, questionIndex) key: an entry with
the same key is overwritten in place (the length does not grow), otherwise
the stamped result is appended. -/
theorem saveQuizResult_unique_keys (userId : Nat) (now : String)
    (result : QuizResult) (l : List QuizResult) (h : UniqueKeys l) :
    UniqueKeys (saveQuizResult userId now result l) ∧
    ((∀ x ∈ l, resultKey x ≠ resultKey result) →
      saveQuizResult userId now result l =
        l ++ [{ result with userId := userId, timestamp := now }]) ∧
    ((∃ x ∈ l, resultKey x = resultKey result) →
      (saveQuizResult userId now result l).length = l.length) := by
  have hstamp :
      resultKey { result with userId := userId, timestamp := now } =
        resultKey result := rfl
  rcases hfind : l.findIdx?
      (fun r => r.noteId == result.noteId && r.questionIndex == result.questionIndex)
    with _ | i
  · have hnone := List.findIdx?_eq_none_iff.mp hfind
    have hne : ∀ x ∈ l, resultKey x ≠ resultKey result := by
      intro x hx
      have := hnone x hx
      intro hk
      rw [← saveQuizResult_pred_iff result x] at hk
      simp [this] at hk
    have hsave : saveQuizResult userId now result l =
        l ++ [{ result with userId := userId, timestamp := now }] := by
      rw [saveQuizResult, hfind]
    refine ⟨?_, fun _ => hsave, ?_⟩
    · rw [hsave]
      rw [UniqueKeys, List.pairwise_append]
      refine ⟨h, List.pairwise_singleton _ _, ?_⟩
      intro a ha b hb
      have hb' : b = { result with userId := userId, timestamp := now } := by
        simpa using hb
      rw [hb', hstamp]
      exact hne a ha
    · rintro ⟨x, hx, hkx⟩
      exact absurd hkx (hne x hx)
  · obtain ⟨hi, hpi, -⟩ := List.findIdx?_eq_some_iff_getElem.mp hfind
    have hki : resultKey l[i] = resultKey result :=
      (saveQuizResult_pred_iff result l[i]).mp hpi
    have hsave : saveQuizResult userId now result l =
        l.set i { result with userId := userId, timestamp := now } := by
      rw [saveQuizResult, hfind]
    refine ⟨?_, ?_, fun _ => by rw [hsave, List.length_set]⟩
    · rw [hsave]
      rw [UniqueKeys, List.pairwise_iff_getElem] at h ⊢
      intro j k hj hk hjk
      rw [List.length_set] at hj hk
      rw [List.getElem_set, List.getElem_set]
      by_cases hij : i = j
      · by_cases hik : i = k
        · omega
        · rw [if_pos hij, if_neg hik, hstamp, ← hki]
          exact h i k hi hk (by omega)
      · by_cases hik : i = k
        · rw [if_neg hij, if_pos hik, hstamp, ← hki]
          exact h j i hj hi (by omega)
        · rw [if_neg hij, if_neg hik]
          exact h j k hj hk hjk
    · intro hall
      have : resultKey l[i] ≠ resultKey result := hall l[i] (l.getElem_mem hi)
      exact absurd hki this

/-- C9: the fallback parsers are total and never yield an empty result: the
flashcard fallback returns the records its Q:/A: loop extracts when there
are any and the single placeholder record otherwise, and the question
fallback always returns exactly the single placeholder MCQ record. -/
theorem fallback_parsers_never_fail (text : String) :
    parseFlashcardsManually text ≠ [] ∧
    (parseFlashcardsLoop (flashcardLines text) none ≠ [] →
      parseFlashcardsManually text =
        parseFlashcardsLoop (flashcardLines text) none) ∧
    (parseFlashcardsLoop (flashcardLines text) none = [] →
      parseFlashcardsManually text = [fallbackFlashcard]) ∧
    parseQuestionsManually text = [fallbackQuestion] := by
  refine ⟨?_, ?_, ?_, rfl⟩
  · rw [parseFlashcardsManually]
    by_cases h : (parseFlashcardsLoop (flashcardLines text) none).length > 0
    · rw [if_pos h]
      intro hc
      rw [hc] at h
      simp at h
    · rw [if_neg h]
      simp
  · intro h
    rw [parseFlashcardsManually,
      if_pos (List.length_pos.mpr h)]
  · intro h
    rw [parseFlashcardsManually, h]
    simp

/-- Witness for C9 at a concrete text with no Q:/A: lines. -/
theorem fallback_parsers_never_fail_witness :
    parseFlashcardsManually ("hello") = [fallbackFlashcard] ∧
    parseQuestionsManually ("hello") = [fallbackQuestion] :=
  ⟨(fallback_parsers_never_fail ("hello")).2.2.1 (by decide),
    (fallback_parsers_never_fail ("hello")).2.2.2⟩

/-- Rat.floor agrees with the floor of the FloorRing instance. -/
theorem ratFloor_eq_intFloor (q : ℚ) : Rat.floor q = ⌊q⌋ := by
  rw [Rat.floor_def', Rat.floor_def]

/-- Folding the score sum from an arbitrary accumulator shifts the total. -/
theorem totalScoreOf_shift (l : List QuizResult) :
    ∀ a : ℚ, l.foldl (fun s r => s + (r.score : ℚ)) a = a + totalScoreOf l := by
  induction l with
  | nil => intro a; simp [totalScoreOf]
  | cons r t ih =>
    intro a
    rw [totalScoreOf, List.foldl_cons, List.foldl_cons, ih, ih (0 + (r.score : ℚ))]
    ring

/-- The score total of a cons. -/
theorem totalScoreOf_cons (r : QuizResult) (l : List QuizResult) :
    totalScoreOf (r :: l) = (r.score : ℚ) + totalScoreOf l := by
  rw [totalScoreOf, List.foldl_cons, totalScoreOf_shift]
  ring

/-- With every score in {-1, +1} the total lies between -N and N. -/
theorem totalScoreOf_bounds (l : List QuizResult)
    (h : ∀ r ∈ l, r.score = 1 ∨ r.score = -1) :
    -(l.length : ℚ) ≤ totalScoreOf l ∧ totalScoreOf l ≤ (l.length : ℚ) := by
  induction l with
  | nil => simp [totalScoreOf]
  | cons r t ih =>
    have hr := h r (List.mem_cons_self r t)
    have ht := ih (fun x hx => h x (List.mem_cons_of_mem r hx))
    rw [totalScoreOf_cons]
    have hsc : (r.score : ℚ) = 1 ∨ (r.score : ℚ) = -1 := by
      rcases hr with h1 | h1 <;> rw [h1] <;> norm_num
    simp only [List.length_cons]
    push_cast
    rcases hsc with h1 | h1 <;> rw [h1] <;>
      exact ⟨by linarith [ht.1], by linarith [ht.2]⟩

/-- Rounding to one decimal keeps a value of [0, 100] inside [0, 100]. -/
theorem toFixed1_bounds (x : ℚ) (h0 : 0 ≤ x) (h1 : x ≤ 100) :
    0 ≤ toFixed1 x ∧ toFixed1 x ≤ 100 := by
  rw [toFixed1, ratFloor_eq_intFloor]
  have hlow : (0 : ℤ) ≤ ⌊10 * x + 1 / 2⌋ := by
    apply Int.floor_nonneg.mpr
    linarith
  have hhigh : ⌊10 * x + 1 / 2⌋ ≤ 1000 := by
    have h2 : ⌊10 * x + 1 / 2⌋ < 1001 := by
      apply Int.floor_lt.mpr
      push_cast
      linarith
    omega
  constructor
  · apply div_nonneg
    · exact_mod_cast hlow
    · norm_num
  · rw [div_le_iff₀ (by norm_num : (0 : ℚ) < 10)]
    calc ((⌊10 * x + 1 / 2⌋ : ℤ) : ℚ) ≤ 1000 := by exact_mod_cast hhigh
    _ = 100 * 10 := by norm_num

/-- Rounding to one decimal is the identity on whole numbers. -/
theorem toFixed1_intCast (n : ℤ) : toFixed1 (n : ℚ) = n := by
  rw [toFixed1, ratFloor_eq_intFloor]
  have : (10 : ℚ) * (n : ℚ) + 1 / 2 = ((10 * n : ℤ) : ℚ) + 1 / 2 := by push_cast; ring
  rw [this, Int.floor_int_add]
  have h12 : ⌊(1 : ℚ) / 2⌋ = 0 := by norm_num
  rw [h12]
  push_cast
  ring

/-- C5 counterexample: with three attempted questions scoring +1, +1, -1
(so N = 3, S = 1), the computed percentage is the rounded 66.7 and differs
from the exact formula value 200/3, refuting the claimed equality. -/
theorem averageScore_exact_formula_counterexample :
    averageScore mixedResults ≠
      (totalScoreOf mixedResults + (mixedResults.length : ℚ)) /
        (2 * (mixedResults.length : ℚ)) * 100 := by
  have hts : totalScoreOf mixedResults = 1 := by
    norm_num [mixedResults, totalScoreOf, qr]
  have hlen : mixedResults.length = 3 := rfl
  rw [averageScore, hts, hlen, normalizedPercentage]
  rw [if_pos (by norm_num : (0 : Nat) < 3)]
  rw [toFixed1, ratFloor_eq_intFloor]
  have harg : (10 : ℚ) * (((1 : ℚ) + (3 : Nat)) / (2 * (3 : Nat)) * 100) + 1 / 2 =
      4003 / 6 := by
    push_cast
    norm_num
  rw [harg]
  have hfl : ⌊(4003 : ℚ) / 6⌋ = 667 := by
    rw [show (4003 : ℚ) / 6 = ((4003 : ℤ) : ℚ) / ((6 : ℕ) : ℚ) by norm_num]
    rw [Rat.floor_intCast_div_natCast]
    norm_num
  rw [hfl]
  push_cast
  norm_num

/-- Evaluation of the percentage at a whole-number result value. -/
theorem normalizedPercentage_eval (S : ℚ) (N : Nat) (v : ℤ) (hN : 0 < N)
    (hv : (S + (N : ℚ)) / (2 * (N : ℚ)) * 100 = (v : ℚ)) :
    normalizedPercentage S N = v := by
  rw [normalizedPercentage, if_pos hN, hv, toFixed1_intCast]

/-- C5 (amended): with every score in {-1, +1}, the computed percentage is
the one-decimal rounding of ((S + N) / (2N)) * 100 and lies in [0, 100];
it agrees with the exact formula whenever that value has at most one
decimal place, in particular N=4,S=0 gives 50.0, N=4,S=4 gives 100.0,
N=4,S=-4 gives 0.0, and N=0 gives 0 rather than a division error. -/
theorem averageScore_spec (results : List QuizResult)
    (h : ∀ r ∈ results, r.score = 1 ∨ r.score = -1) :
    (averageScore results =
      if 0 < results.length then
        toFixed1 ((totalScoreOf results + (results.length : ℚ)) /
          (2 * (results.length : ℚ)) * 100)
      else 0) ∧
    0 ≤ averageScore results ∧ averageScore results ≤ 100 ∧
    averageScore fourEven = 50 ∧
    averageScore fourAllCorrect = 100 ∧
    averageScore fourAllWrong = 0 ∧
    averageScore ([] : List QuizResult) = 0 := by
  have hbounds : 0 ≤ averageScore results ∧ averageScore results ≤ 100 := by
    by_cases hlen : results.length = 0
    · rw [averageScore, hlen, normalizedPercentage]
      norm_num
    · have hpos : 0 < results.length := Nat.pos_of_ne_zero hlen
      obtain ⟨hb1, hb2⟩ := totalScoreOf_bounds results h
      have hNpos : (0 : ℚ) < (results.length : ℚ) := by exact_mod_cast hpos
      have hx0 : 0 ≤ (totalScoreOf results + (results.length : ℚ)) /
          (2 * (results.length : ℚ)) * 100 :=
        mul_nonneg (div_nonneg (by linarith) (by linarith)) (by norm_num)
      have hx1 : (totalScoreOf results + (results.length : ℚ)) /
          (2 * (results.length : ℚ)) * 100 ≤ 100 := by
        have hdiv : (totalScoreOf results + (results.length : ℚ)) /
            (2 * (results.length : ℚ)) ≤ 1 := by
          rw [div_le_one (by linarith)]
          linarith
        have := mul_le_mul_of_nonneg_right hdiv (by norm_num : (0 : ℚ) ≤ 100)
        simpa using this
      have hav : averageScore results =
          toFixed1 ((totalScoreOf results + (results.length : ℚ)) /
            (2 * (results.length : ℚ)) * 100) := by
        rw [averageScore, normalizedPercentage, if_pos hpos]
      rw [hav]
      exact toFixed1_bounds _ hx0 hx1
  refine ⟨rfl, hbounds.1, hbounds.2, ?_, ?_, ?_, ?_⟩
  · have hts : totalScoreOf fourEven = 0 := by
      norm_num [fourEven, totalScoreOf, qr]
    rw [averageScore]
    exact normalizedPercentage_eval _ _ 50 (by norm_num [fourEven])
      (by rw [hts, show fourEven.length = 4 from rfl]; push_cast; norm_num)
  · have hts : totalScoreOf fourAllCorrect = 4 := by
      norm_num [fourAllCorrect, totalScoreOf, qr]
    rw [averageScore]
    exact normalizedPercentage_eval _ _ 100 (by norm_num [fourAllCorrect])
      (by rw [hts, show fourAllCorrect.length = 4 from rfl]; push_cast; norm_num)
  · have hts : totalScoreOf fourAllWrong = -4 := by
      norm_num [fourAllWrong, totalScoreOf, qr]
    rw [averageScore]
    exact normalizedPercentage_eval _ _ 0 (by norm_num [fourAllWrong])
      (by rw [hts, show fourAllWrong.length = 4 from rfl]; push_cast; norm_num)
  · rw [averageScore, normalizedPercentage]
    norm_num

/-- Witness for C5 at a concrete three-question result list. -/
theorem averageScore_spec_witness :
    0 ≤ averageScore mixedResults ∧ averageScore mixedResults ≤ 100 :=
  ⟨(averageScore_spec mixedResults (by decide)).2.1,
    (averageScore_spec mixedResults (by decide)).2.2.1⟩

/-- The returned pair of a rotation step is the pair under the cursor. -/
theorem getNextKeyAndModel_fst (keys models : List String) (s : RotState) :
    (getNextKeyAndModel keys models s).1 = cursorValue keys models s := by
  by_cases h : s.currentModelIndex + 1 ≥ models.length <;>
    simp [getNextKeyAndModel, cursorValue, h]

/-- Advancing the cursor adds one to its positional encoding, modulo the
number of (credential, model) pairs, and preserves validity. -/
theorem getNextKeyAndModel_snd (keys models : List String) (s : RotState)
    (hs : ValidCursor keys.length models.length s) :
    (getNextKeyAndModel keys models s).2 =
      decodeCursor models.length
        ((encodeCursor models.length s + 1) % (keys.length * models.length)) ∧
    ValidCursor keys.length models.length (getNextKeyAndModel keys models s).2 := by
  obtain ⟨hk, hm⟩ := hs
  have hMpos : 0 < models.length := by omega
  have hNpos : 0 < keys.length := by omega
  by_cases hcase : s.currentModelIndex + 1 ≥ models.length
  · have hstate : (getNextKeyAndModel keys models s).2 =
        { currentKeyIndex := (s.currentKeyIndex + 1) % keys.length,
          currentModelIndex := 0 } := by
      simp [getNextKeyAndModel, hcase]
    have hencode : encodeCursor models.length s + 1 =
        (s.currentKeyIndex + 1) * models.length := by
      rw [encodeCursor, Nat.succ_mul]
      omega
    have hmod : ((s.currentKeyIndex + 1) * models.length) %
        (keys.length * models.length) =
        ((s.currentKeyIndex + 1) % keys.length) * models.length :=
      Nat.mul_mod_mul_right models.length (s.currentKeyIndex + 1) keys.length
    refine ⟨?_, ?_⟩
    · rw [hstate, hencode, hmod, decodeCursor]
      have hdiv : ((s.currentKeyIndex + 1) % keys.length) * models.length /
          models.length = (s.currentKeyIndex + 1) % keys.length :=
        Nat.mul_div_cancel _ hMpos
      have hmd : ((s.currentKeyIndex + 1) % keys.length) * models.length %
          models.length = 0 := Nat.mul_mod_left _ _
      rw [hdiv, hmd]
    · rw [hstate]
      exact ⟨Nat.mod_lt _ hNpos, hMpos⟩
  · have hstate : (getNextKeyAndModel keys models s).2 =
        { currentKeyIndex := s.currentKeyIndex,
          currentModelIndex := s.currentModelIndex + 1 } := by
      simp [getNextKeyAndModel, hcase]
    have hlt : encodeCursor models.length s + 1 <
        keys.length * models.length := by
      rw [encodeCursor]
      have h1 : s.currentKeyIndex * models.length + s.currentModelIndex + 1 <
          (s.currentKeyIndex + 1) * models.length := by
        rw [Nat.succ_mul]
        omega
      have h2 : (s.currentKeyIndex + 1) * models.length ≤
          keys.length * models.length := Nat.mul_le_mul_right _ hk
      omega
    refine ⟨?_, ?_⟩
    · rw [hstate, Nat.mod_eq_of_lt hlt, encodeCursor, decodeCursor]
      have hre : s.currentKeyIndex * models.length + s.currentModelIndex + 1 =
          models.length * s.currentKeyIndex + (s.currentModelIndex + 1) := by
        ring
      have hdiv : (s.currentKeyIndex * models.length + s.currentModelIndex + 1) /
          models.length = s.currentKeyIndex := by
        rw [hre, Nat.mul_add_div hMpos, Nat.div_eq_of_lt (by omega), Nat.add_zero]
      have hmd : (s.currentKeyIndex * models.length + s.currentModelIndex + 1) %
          models.length = s.currentModelIndex + 1 := by
        rw [hre, Nat.mul_add_mod, Nat.mod_eq_of_lt (by omega)]
      rw [hdiv, hmd]
    · rw [hstate]
      exact ⟨hk, show s.currentModelIndex + 1 < models.length by omega⟩

/-- Encoding after decoding is the identity. -/
theorem encodeCursor_decodeCursor (M x : Nat) :
    encodeCursor M (decodeCursor M x) = x := by
  rw [encodeCursor, decodeCursor, Nat.mul_comm]
  exact Nat.div_add_mod x M

/-- Decoding after encoding is the identity on valid cursors. -/
theorem decodeCursor_encodeCursor (N M : Nat) (s : RotState)
    (hs : ValidCursor N M s) : decodeCursor M (encodeCursor M s) = s := by
  obtain ⟨hk, hm⟩ := hs
  have hMpos : 0 < M := by omega
  rw [encodeCursor, decodeCursor]
  have hre : s.currentKeyIndex * M + s.currentModelIndex =
      M * s.currentKeyIndex + s.currentModelIndex := by
    ring
  rw [hre, Nat.mul_add_div hMpos, Nat.mul_add_mod, Nat.div_eq_of_lt hm,
    Nat.mod_eq_of_lt hm, Nat.add_zero]

/-- The encoding of a valid cursor is below the number of pairs. -/
theorem encodeCursor_lt (N M : Nat) (s : RotState)
    (hs : ValidCursor N M s) : encodeCursor M s < N * M := by
  obtain ⟨hk, hm⟩ := hs
  rw [encodeCursor]
  have h1 : s.currentKeyIndex * M + s.currentModelIndex <
      (s.currentKeyIndex + 1) * M := by
    rw [Nat.succ_mul]
    omega
  have h2 : (s.currentKeyIndex + 1) * M ≤ N * M := Nat.mul_le_mul_right _ hk
  omega

/-- The outputs of cnt successive rotator calls, described by the modular
trajectory of the positional encoding. -/
theorem rotOutputs_eq (keys models : List String) :
    ∀ (cnt : Nat) (s : RotState),
      ValidCursor keys.length models.length s →
      rotOutputs keys models s cnt =
        (List.range cnt).map (fun t =>
          cursorValue keys models
            (decodeCursor models.length
              ((encodeCursor models.length s + t) %
                (keys.length * models.length)))) := by
  intro cnt
  induction cnt with
  | zero => intro s _; rfl
  | succ n ih =>
    intro s hs
    obtain ⟨hstep, hvalid⟩ := getNextKeyAndModel_snd keys models s hs
    rw [rotOutputs, ih _ hvalid, getNextKeyAndModel_fst, hstep,
      List.range_succ_eq_map, List.map_cons, List.map_map]
    congr 1
    · rw [Nat.add_zero, Nat.mod_eq_of_lt (encodeCursor_lt _ _ s hs),
        decodeCursor_encodeCursor _ _ s hs]
    · apply List.map_congr_left
      intro t _
      show cursorValue keys models _ = cursorValue keys models _
      apply congrArg
      apply congrArg
      rw [encodeCursor_decodeCursor, Nat.mod_add_mod]
      congr 1
      omega

/-- C1: from every valid cursor over nonempty, duplicate-free credential
and model lists, N*M successive rotator calls return each of the N*M
(credential, model) pairs exactly once: the output list has no duplicate
and contains every pair. -/
theorem rotator_full_cycle (keys models : List String) (s : RotState)
    (hkeys : keys.Nodup) (hmodels : models.Nodup)
    (hs : ValidCursor keys.length models.length s) :
    (rotOutputs keys models s (keys.length * models.length)).Nodup ∧
    ∀ c ∈ keys, ∀ m ∈ models,
      (c, m) ∈ rotOutputs keys models s (keys.length * models.length) := by
  have hNpos : 0 < keys.length := by omega
  have hMpos : 0 < models.length := by omega
  have hNM : 0 < keys.length * models.length := Nat.mul_pos hNpos hMpos
  have he := encodeCursor_lt _ _ s hs
  rw [rotOutputs_eq keys models _ s hs]
  constructor
  · apply List.Nodup.map_on ?_ (List.nodup_range _)
    intro t1 ht1 t2 ht2 heq
    rw [List.mem_range] at ht1 ht2
    have hx1 : (encodeCursor models.length s + t1) %
        (keys.length * models.length) < keys.length * models.length :=
      Nat.mod_lt _ hNM
    have hx2 : (encodeCursor models.length s + t2) %
        (keys.length * models.length) < keys.length * models.length :=
      Nat.mod_lt _ hNM
    have hk1 : (encodeCursor models.length s + t1) %
        (keys.length * models.length) / models.length < keys.length :=
      (Nat.div_lt_iff_lt_mul hMpos).mpr hx1
    have hk2 : (encodeCursor models.length s + t2) %
        (keys.length * models.length) / models.length < keys.length :=
      (Nat.div_lt_iff_lt_mul hMpos).mpr hx2
    have hm1 : (encodeCursor models.length s + t1) %
        (keys.length * models.length) % models.length < models.length :=
      Nat.mod_lt _ hMpos
    have hm2 : (encodeCursor models.length s + t2) %
        (keys.length * models.length) % models.length < models.length :=
      Nat.mod_lt _ hMpos
    simp only [cursorValue, decodeCursor, Prod.mk.injEq] at heq
    rw [List.getD_eq_getElem _ _ hk1, List.getD_eq_getElem _ _ hk2,
      List.getD_eq_getElem _ _ hm1, List.getD_eq_getElem _ _ hm2] at heq
    have hdiv := (hkeys.getElem_inj_iff).mp heq.1
    have hmod := (hmodels.getElem_inj_iff).mp heq.2
    have hxeq : (encodeCursor models.length s + t1) %
        (keys.length * models.length) =
        (encodeCursor models.length s + t2) %
        (keys.length * models.length) := by
      have d1 := Nat.div_add_mod ((encodeCursor models.length s + t1) %
        (keys.length * models.length)) models.length
      have d2 := Nat.div_add_mod ((encodeCursor models.length s + t2) %
        (keys.length * models.length)) models.length
      rw [← d1, ← d2, hdiv, hmod]
    have hmodeq : t1 % (keys.length * models.length) =
        t2 % (keys.length * models.length) :=
      Nat.ModEq.add_left_cancel' (encodeCursor models.length s) hxeq
    rw [Nat.mod_eq_of_lt ht1, Nat.mod_eq_of_lt ht2] at hmodeq
    exact hmodeq
  · intro c hc m hm
    obtain ⟨i, hi, hci⟩ := List.mem_iff_getElem.mp hc
    obtain ⟨j, hj, hmj⟩ := List.mem_iff_getElem.mp hm
    have h1 : i * models.length + j < (i + 1) * models.length := by
      rw [Nat.succ_mul]
      omega
    have he' : i * models.length + j < keys.length * models.length :=
      Nat.lt_of_lt_of_le h1 (Nat.mul_le_mul_right _ hi)
    refine List.mem_map.mpr
      ⟨(keys.length * models.length + (i * models.length + j) -
          encodeCursor models.length s) % (keys.length * models.length),
        List.mem_range.mpr (Nat.mod_lt _ hNM), ?_⟩
    have harg : (encodeCursor models.length s +
        (keys.length * models.length + (i * models.length + j) -
          encodeCursor models.length s) % (keys.length * models.length)) %
        (keys.length * models.length) = i * models.length + j := by
      rw [Nat.add_mod_mod]
      have hle : encodeCursor models.length s ≤
          keys.length * models.length + (i * models.length + j) :=
        Nat.le_trans (Nat.le_of_lt he) (Nat.le_add_right _ _)
      rw [Nat.add_sub_cancel' hle, Nat.add_mod_left,
        Nat.mod_eq_of_lt he']
    rw [harg, cursorValue, decodeCursor]
    have hdiv : (i * models.length + j) / models.length = i := by
      have hre : i * models.length + j = models.length * i + j := by
        ring
      rw [hre, Nat.mul_add_div hMpos, Nat.div_eq_of_lt hj, Nat.add_zero]
    have hmd : (i * models.length + j) % models.length = j := by
      have hre : i * models.length + j = models.length * i + j := by
        ring
      rw [hre, Nat.mul_add_mod, Nat.mod_eq_of_lt hj]
    rw [hdiv, hmd, List.getD_eq_getElem _ _ hi, List.getD_eq_getElem _ _ hj,
      hci, hmj]

/-- Witness for C1: two credentials and three models, starting mid-cycle at
cursor (1, 2); the six outputs are pairwise distinct and cover all pairs. -/
theorem rotator_full_cycle_witness :
    (rotOutputs ["a", "b"] ["x", "y", "z"] ⟨1, 2⟩ 6).Nodup ∧
    ∀ c ∈ ["a", "b"], ∀ m ∈ ["x", "y", "z"],
      (c, m) ∈ rotOutputs ["a", "b"] ["x", "y", "z"] ⟨1, 2⟩ 6 :=
  rotator_full_cycle ["a", "b"] ["x", "y", "z"] ⟨1, 2⟩
    (by decide) (by decide) (by decide)

/-- When every attempt of the remaining budget fails, the loop uses the
whole budget and ends by throwing the message recorded by the last
attempt. -/
theorem callGeminiAux_all_fail (keys models : List String)
    (responses : Nat → AttemptOutcome) :
    ∀ fuel : Nat, 0 < fuel →
      ∀ (n : Nat) (s : RotState) (lastError : Option String),
      (∀ i, n ≤ i → i < n + fuel → attemptFails (responses i) = true) →
      callGeminiAux keys models responses fuel s n lastError =
        { attempts := n + fuel,
          result := .failure (recordedMsg (responses (n + fuel - 1))) } := by
  intro fuel
  induction fuel with
  | zero => intro h; exact absurd h (Nat.lt_irrefl 0)
  | succ f ih =>
    intro _ n s lastError hall
    have hfail := hall n (Nat.le_refl n) (by omega)
    have hstep : ∀ (msg : String) (s' : RotState),
        msg = recordedMsg (responses n) →
        callGeminiAux keys models responses f s' (n + 1) (some msg) =
          { attempts := n + (f + 1),
            result := .failure (recordedMsg (responses (n + (f + 1) - 1))) } := by
      intro msg s' hmsg
      cases f with
      | zero =>
        rw [callGeminiAux]
        simp [hmsg]
      | succ g =>
        rw [ih (by omega) (n + 1) s' (some msg)
          (fun i h1 h2 => hall i (by omega) (by omega))]
        have hidx : n + 1 + (g + 1) = n + (g + 1 + 1) := by omega
        rw [hidx]
    simp only [callGeminiAux]
    split
    next t sb heq =>
      rw [heq] at hfail
      simp [attemptFails] at hfail
    next sb heq =>
      exact hstep _ _ (by rw [heq]; rfl)
    next status errMsg heq =>
      by_cases h1 : (status == 429 || status == 403) = true
      · rw [if_pos h1]
        exact hstep _ _ (by rw [heq]; simp [recordedMsg, h1])
      · rw [if_neg h1]
        by_cases h2 : (status == 404 || status == 400) = true
        · rw [if_pos h2]
          exact hstep _ _ (by rw [heq]; simp [recordedMsg, h1, h2])
        · rw [if_neg h2]
          exact hstep _ _ (by rw [heq]; simp [recordedMsg, h1, h2])
    next m heq =>
      exact hstep _ _ (by rw [heq]; rfl)

/-- C3: when every response of the sequence is a retryable failure (for
example all HTTP 429), callGemini makes exactly N*M attempts (N keys, M
models) and then fails with the failure reason recorded by the last
attempt. -/
theorem invoker_exhaustion (keys models : List String)
    (responses : Nat → AttemptOutcome) (s : RotState)
    (hN : 0 < keys.length) (hM : 0 < models.length)
    (hall : ∀ i, i < keys.length * models.length →
      ∃ status msg, responses i = .httpErr status msg ∧
        retryableStatus status = true) :
    callGemini keys models responses s =
      { attempts := keys.length * models.length,
        result := .failure
          (recordedMsg (responses (keys.length * models.length - 1))) } := by
  rw [callGemini, if_neg (by omega)]
  have hfails : ∀ i, 0 ≤ i → i < 0 + keys.length * models.length →
      attemptFails (responses i) = true := by
    intro i _ h2
    obtain ⟨st, m, heq, _⟩ := hall i (by omega)
    rw [heq]
    rfl
  have h := callGeminiAux_all_fail keys models responses
    (keys.length * models.length) (Nat.mul_pos hN hM) 0 s none hfails
  simpa using h

/-- Witness for C3: two keys, one model, every response HTTP 429: two
attempts, then the last rate-limit reason is thrown. -/
theorem invoker_exhaustion_witness :
    callGemini ["k1", "k2"] ["m1"] (fun _ => .httpErr 429 none) ⟨0, 0⟩ =
      { attempts := 2, result := .failure ("Rate limit: 429") } := by
  have h := invoker_exhaustion ["k1", "k2"] ["m1"]
    (fun _ => .httpErr 429 none) ⟨0, 0⟩ (by decide) (by decide)
    (fun i _ => ⟨429, none, rfl, rfl⟩)
  rw [h]
  rfl

/-- C2 counterexample: one key and the four source models, every attempt
answering HTTP 500 (a non-retryable status, the first one on attempt 1):
callGemini does not stop after 1 attempt, it makes all 4. -/
theorem invoker_fatal_counterexample :
    callGemini ["k1"] MODELS (fun _ => .httpErr 500 none) ⟨0, 0⟩ =
      { attempts := 4,
        result := .failure ("API request failed with status 500") } ∧
    (callGemini ["k1"] MODELS (fun _ => .httpErr 500 none) ⟨0, 0⟩).attempts ≠ 1 := by
  constructor
  · rfl
  · decide

/-- C2 (amended): a non-retryable HTTP status on attempt k < N*M does not
abort the rotation: the thrown error is caught by the loop's catch block,
recorded as the last error, and the loop keeps attempting; with no
successful attempt anywhere, callGemini still makes all N*M attempts and
then fails with the last recorded reason — in particular the attempt count
is not k. -/
theorem invoker_fatal_continues (keys models : List String)
    (responses : Nat → AttemptOutcome) (s : RotState) (j : Nat)
    (hN : 0 < keys.length) (hM : 0 < models.length)
    (hall : ∀ i, i < keys.length * models.length →
      attemptFails (responses i) = true)
    (_hfatal : ∃ status msg, responses j = .httpErr status msg ∧
      retryableStatus status = false)
    (hj : j + 1 < keys.length * models.length) :
    callGemini keys models responses s =
      { attempts := keys.length * models.length,
        result := .failure
          (recordedMsg (responses (keys.length * models.length - 1))) } ∧
    (callGemini keys models responses s).attempts ≠ j + 1 := by
  have hmain : callGemini keys models responses s =
      { attempts := keys.length * models.length,
        result := .failure
          (recordedMsg (responses (keys.length * models.length - 1))) } := by
    rw [callGemini, if_neg (by omega)]
    have h := callGeminiAux_all_fail keys models responses
      (keys.length * models.length) (Nat.mul_pos hN hM) 0 s none
      (fun i _ h2 => hall i (by omega))
    simpa using h
  refine ⟨hmain, ?_⟩
  rw [hmain]
  show keys.length * models.length ≠ j + 1
  omega

/-- Witness for C2 (amended): one key, the four source models, HTTP 500 on
attempt 2 and HTTP 429 elsewhere: four attempts, the last rate-limit reason
thrown, and the attempt count is not 2. -/
theorem invoker_fatal_continues_witness :
    callGemini ["k1"] MODELS
        (fun i => if i = 1 then .httpErr 500 none else .httpErr 429 none)
        ⟨0, 0⟩ =
      { attempts := 4, result := .failure ("Rate limit: 429") } ∧
    (callGemini ["k1"] MODELS
        (fun i => if i = 1 then .httpErr 500 none else .httpErr 429 none)
        ⟨0, 0⟩).attempts ≠ 2 := by
  have h := invoker_fatal_continues ["k1"] MODELS
    (fun i => if i = 1 then .httpErr 500 none else .httpErr 429 none)
    ⟨0, 0⟩ 1 (by decide) (by decide)
    (fun i _ => by
      by_cases hi : i = 1 <;> simp [hi, attemptFails])
    ⟨500, none, rfl, rfl⟩ (by decide)
  refine ⟨?_, h.2⟩
  rw [h.1]
  rfl

/-- Witness for C8: answering question (1,1) again in a two-entry list keeps
the keys unique and the length at two. -/
theorem saveQuizResult_unique_keys_witness :
    UniqueKeys (saveQuizResult 7 ("t1") sampleResultB2 [sampleResultA, sampleResultB]) ∧
    (saveQuizResult 7 ("t1") sampleResultB2 [sampleResultA, sampleResultB]).length = 2 := by
  have h := saveQuizResult_unique_keys 7 ("t1") sampleResultB2
    [sampleResultA, sampleResultB] (by decide)
  refine ⟨h.1, ?_⟩
  rw [h.2.2 ⟨sampleResultB, by decide, by decide⟩]
  decide

end NotesApp
